import Mathlib

/-!
Verification of the tool-mediated task store (`mcp_demo_simple.py`,
`mcp_task_manager.py`).

The Python code is shallowly embedded:

* `SimulatedMCPServer` is a record holding the in-memory filesystem, a
  path-keyed dictionary modelled as an ordered association list with
  Python-dict update semantics (`dictSet` overwrites in place, appends new
  keys at the end).
* A raised Python exception is modelled as `Except.error msg`; a normal
  return is `Except.ok`.  `call_tool` returns the structured result dict as
  the sum type `ToolResult` (one constructor per shape of dict the source
  returns).
* Tasks are the fixed-schema records the code creates and persists.
* `json_dumps` reproduces the text produced by `json.dumps(tasks, indent=2)`
  (Python's stdlib, external to the repository): two-space indentation,
  insertion-ordered keys `id`, `description`, `priority`, `completed`, and
  `ensure_ascii` string escaping (`\"`, `\\`, `\b`, `\f`, `\n`, `\r`, `\t`,
  `\uXXXX` for other controls and all non-ASCII, surrogate pairs above
  `0xFFFF`).  `json_loads` models `json.loads` restricted to the task-array
  grammar: it accepts every text `json_dumps` emits (hence all persisted
  states the store itself produces).  Its error path is wider than the
  stdlib's — it also rejects JSON texts formatted differently from the
  `json_dumps` output — so no general theorem quantifies over it; where a
  decode failure matters, the hypothesis is `jsonUndecodable`, a sufficient
  condition under which the stdlib parser provably fails too, or a concrete
  text (such as `"not json"`) on which it fails.
-/

namespace MCPDemo

/-- A task record, exactly the four-key dict `add_task` builds. -/
structure Task where
  id : Int
  description : String
  priority : String
  completed : Bool
deriving DecidableEq, Repr

/-- The structured result dict returned by `SimulatedMCPServer.call_tool`:
one constructor per dict shape the source returns. -/
inductive ToolResult where
  /-- the dict holding a "content" key -/
  | content (s : String)
  /-- the dict holding "success": True -/
  | success
  /-- the dict holding a "files" key -/
  | files (l : List String)
  /-- the dict holding an "error" key -/
  | error (msg : String)
deriving DecidableEq, Repr

/-- Python dict lookup (`k in d` / `d[k]` when present), on the ordered
association-list model of a dict. -/
def dictGet? (d : List (String × String)) (k : String) : Option String :=
  match d with
  | [] => none
  | (k0, v0) :: rest => if k0 = k then some v0 else dictGet? rest k

/-- Python subscript `d[k]`: raises `KeyError` when the key is absent. -/
def dictGetExc (d : List (String × String)) (k : String) : Except String String :=
  match dictGet? d k with
  | some v => .ok v
  | none => .error ("KeyError: " ++ k)

/-- Python dict assignment `d[k] = v`: overwrites in place, appends a new
key at the end (insertion order preserved). -/
def dictSet (d : List (String × String)) (k v : String) : List (String × String) :=
  match d with
  | [] => [(k, v)]
  | (k0, v0) :: rest => if k0 = k then (k0, v) :: rest else (k0, v0) :: dictSet rest k v

/-- `dict.get(key, default)` on a `ToolResult`, as used by
`_read_tasks`: `result.get("content", "[]")`. -/
def ToolResult.getContentD (r : ToolResult) (default : String) : String :=
  match r with
  | .content s => s
  | _ => default

/-- State of `SimulatedMCPServer`: the in-memory file system. -/
structure SimulatedMCPServer where
  filesystem : List (String × String)
deriving DecidableEq, Repr

/-- `SimulatedMCPServer.call_tool`: dispatch on the tool name.  The result
pairs the (possibly updated) server state with the returned dict; a raised
`KeyError` from subscripting `arguments` is `Except.error`. -/
def SimulatedMCPServer.call_tool (server : SimulatedMCPServer) (tool_name : String)
    (arguments : List (String × String)) : Except String (SimulatedMCPServer × ToolResult) :=
  if tool_name = "read_file" then do
    let path ← dictGetExc arguments "path"
    match dictGet? server.filesystem path with
    | some c => .ok (server, .content c)
    | none => .ok (server, .content "[]")
  else if tool_name = "write_file" then do
    let path ← dictGetExc arguments "path"
    let content ← dictGetExc arguments "content"
    .ok (⟨dictSet server.filesystem path content⟩, .success)
  else if tool_name = "list_directory" then
    .ok (server, .files (server.filesystem.map Prod.fst))
  else
    .ok (server, .error ("Unknown tool: " ++ tool_name))

/-! ## The JSON text layer: `json.dumps(tasks, indent=2)` and `json.loads` -/

/-- Lower-case hexadecimal digit, as in Python's `"\u%04x"` escapes. -/
def hexDigitChar (n : Nat) : Char :=
  match n with
  | 0 => '0' | 1 => '1' | 2 => '2' | 3 => '3' | 4 => '4'
  | 5 => '5' | 6 => '6' | 7 => '7' | 8 => '8' | 9 => '9'
  | 10 => 'a' | 11 => 'b' | 12 => 'c' | 13 => 'd' | 14 => 'e'
  | _ => 'f'

/-- Four lower-case hex digits of `n < 0x10000`. -/
def hex4 (n : Nat) : List Char :=
  [hexDigitChar (n / 4096 % 16), hexDigitChar (n / 256 % 16),
   hexDigitChar (n / 16 % 16), hexDigitChar (n % 16)]

/-- The escape of one character in `json.dumps`'s default (`ensure_ascii`)
string encoder: short escapes for the JSON specials, `\uXXXX` for other
controls and all non-ASCII, a surrogate pair above `0xFFFF`, and printable
ASCII verbatim. -/
def escChar (c : Char) : List Char :=
  if c = '\"' then ['\\', '\"']
  else if c = '\\' then ['\\', '\\']
  else if c = '\x08' then ['\\', 'b']
  else if c = '\x0c' then ['\\', 'f']
  else if c = '\n' then ['\\', 'n']
  else if c = '\x0d' then ['\\', 'r']
  else if c = '\t' then ['\\', 't']
  else if c.toNat < 0x20 then '\\' :: 'u' :: hex4 c.toNat
  else if c.toNat < 0x7f then [c]
  else if c.toNat < 0x10000 then '\\' :: 'u' :: hex4 c.toNat
  else ('\\' :: 'u' :: hex4 (0xd800 + (c.toNat - 0x10000) / 0x400))
       ++ ('\\' :: 'u' :: hex4 (0xdc00 + (c.toNat - 0x10000) % 0x400))

/-- A JSON string literal: quote, escaped characters, closing quote. -/
def quoteChars (s : String) : List Char :=
  '\"' :: ((s.data.map escChar).flatten ++ ['\"'])

/-- Decimal digit character. -/
def digitChar (n : Nat) : Char :=
  match n with
  | 0 => '0' | 1 => '1' | 2 => '2' | 3 => '3' | 4 => '4'
  | 5 => '5' | 6 => '6' | 7 => '7' | 8 => '8' | _ => '9'

/-- Decimal digits, most significant first, with a structural fuel bound
(any fuel above the value suffices; keeping the recursion structural keeps
the function computable by kernel reduction). -/
def natCharsAux : Nat → Nat → List Char
  | 0, _ => []
  | fuel + 1, n =>
    if n < 10 then [digitChar n]
    else natCharsAux fuel (n / 10) ++ [digitChar (n % 10)]

/-- Decimal digits of a natural number, most significant first. -/
def natChars (n : Nat) : List Char :=
  natCharsAux (n + 1) n

/-- Ten to the number of decimal digits of `n` (same recursion as
`natChars`; proof device for the digit round trip). -/
def tenPow (n : Nat) : Nat :=
  if _h : n < 10 then 10 else tenPow (n / 10) * 10
termination_by n
decreasing_by omega

/-- Python's decimal rendering of an `int`. -/
def intChars (i : Int) : List Char :=
  if i < 0 then '-' :: natChars i.natAbs else natChars i.toNat

/-- The text block `json.dumps([task], indent=2)` produces for one task
object (without the surrounding brackets): two-space indented braces,
four-space indented keys in insertion order. -/
def dumpTask (t : Task) : List Char :=
  ("  \x7b\n    \"id\": ").data ++
    (intChars t.id ++
      ((",\n    \"description\": ").data ++
        (quoteChars t.description ++
          ((",\n    \"priority\": ").data ++
            (quoteChars t.priority ++
              ((",\n    \"completed\": ").data ++
                ((if t.completed then ("true").data else ("false").data) ++
                  ("\n  \x7d").data)))))))

/-- The task blocks of a non-empty array joined by `",\n"`, with the final
`"\n]"` closing the array. -/
def blocksChars : List Task → List Char
  | [] => []
  | [t] => dumpTask t ++ ('\n' :: [']'])
  | t :: t2 :: ts => dumpTask t ++ (',' :: '\n' :: blocksChars (t2 :: ts))

/-- The full character stream of `json.dumps(tasks, indent=2)`. -/
def dumpChars : List Task → List Char
  | [] => ['[', ']']
  | t :: ts => '[' :: '\n' :: blocksChars (t :: ts)

/-- The text `json.dumps(tasks, indent=2)` returns. -/
def json_dumps (tasks : List Task) : String :=
  ⟨dumpChars tasks⟩

/-- Value of one hexadecimal digit, upper or lower case. -/
def hexVal? (c : Char) : Option Nat :=
  if '0' ≤ c ∧ c ≤ '9' then some (c.toNat - 48)
  else if 'a' ≤ c ∧ c ≤ 'f' then some (c.toNat - 87)
  else if 'A' ≤ c ∧ c ≤ 'F' then some (c.toNat - 55)
  else none

/-- Parse exactly four hex digits. -/
def parseHex4 (l : List Char) : Option (Nat × List Char) :=
  match l with
  | c1 :: c2 :: c3 :: c4 :: rest => do
    let d1 ← hexVal? c1
    let d2 ← hexVal? c2
    let d3 ← hexVal? c3
    let d4 ← hexVal? c4
    some (((d1 * 16 + d2) * 16 + d3) * 16 + d4, rest)
  | _ => none

/-- The unicode scalar `n` as a `Char`, when valid. -/
def mkChar? (n : Nat) : Option Char :=
  if h : n.isValidChar then
    some ⟨UInt32.ofNat n, by
      have hs : UInt32.size = 4294967296 := rfl
      have hn : n < UInt32.size := by
        rcases h with h | h
        · omega
        · omega
      have : (UInt32.ofNat n).toNat = n % UInt32.size := rfl
      show (UInt32.ofNat n).toNat.isValidChar
      rw [this, Nat.mod_eq_of_lt hn]
      exact h⟩
  else none

/-- Decode one JSON string escape (the part after the backslash), consuming
a full surrogate pair on `\uD800`–`\uDBFF`. -/
def parseEscape (l : List Char) : Option (Char × List Char) :=
  match l with
  | [] => none
  | e :: r =>
    if e = '\"' then some ('\"', r)
    else if e = '\\' then some ('\\', r)
    else if e = '/' then some ('/', r)
    else if e = 'b' then some ('\x08', r)
    else if e = 'f' then some ('\x0c', r)
    else if e = 'n' then some ('\n', r)
    else if e = 'r' then some ('\x0d', r)
    else if e = 't' then some ('\t', r)
    else if e = 'u' then
      match parseHex4 r with
      | none => none
      | some (h, r1) =>
        if h < 0xd800 ∨ 0xdfff < h then
          (mkChar? h).map (fun c => (c, r1))
        else if h ≤ 0xdbff then
          match r1 with
          | b1 :: b2 :: r2 =>
            if b1 = '\\' ∧ b2 = 'u' then
              match parseHex4 r2 with
              | some (lo, r3) =>
                if 0xdc00 ≤ lo ∧ lo ≤ 0xdfff then
                  (mkChar? (0x10000 + (h - 0xd800) * 0x400 + (lo - 0xdc00))).map
                    (fun c => (c, r3))
                else none
              | none => none
            else none
          | _ => none
        else none
    else none

/-- Body of a JSON string literal after the opening quote: raw characters
(no controls), escapes, until the closing quote.  `fuel` bounds the number
of string characters produced; any `fuel` above that bound is enough. -/
def parseStrBody (fuel : Nat) (l : List Char) : Option (List Char × List Char) :=
  match fuel, l with
  | 0, _ => none
  | _ + 1, [] => none
  | fuel + 1, c :: rest =>
    if c = '\"' then some ([], rest)
    else if c = '\\' then
      match parseEscape rest with
      | some (d, r1) =>
        match parseStrBody fuel r1 with
        | some (s, r2) => some (d :: s, r2)
        | none => none
      | none => none
    else if 0x20 ≤ c.toNat then
      match parseStrBody fuel rest with
      | some (s, r2) => some (c :: s, r2)
      | none => none
    else none

/-- A JSON string literal. -/
def parseJString (fuel : Nat) (l : List Char) : Option (String × List Char) :=
  match l with
  | '\"' :: rest => (parseStrBody fuel rest).map (fun p => (⟨p.1⟩, p.2))
  | _ => none

/-- Value of a decimal digit character. -/
def digVal? (c : Char) : Option Nat :=
  if '0' ≤ c ∧ c ≤ '9' then some (c.toNat - 48) else none

/-- Whether a character stream starts with a decimal digit (proof device
for delimiting greedy number parsing). -/
def leadDigit : List Char → Bool
  | [] => false
  | c :: _ => (digVal? c).isSome

/-- Greedily consume decimal digits onto an accumulator. -/
def parseNatAux (acc : Nat) : List Char → Nat × List Char
  | [] => (acc, [])
  | c :: cs =>
    match digVal? c with
    | some d => parseNatAux (acc * 10 + d) cs
    | none => (acc, c :: cs)

/-- Parse a natural number: at least one leading digit. -/
def parseNat (l : List Char) : Option (Nat × List Char) :=
  match l with
  | [] => none
  | c :: cs =>
    match digVal? c with
    | some d => some (parseNatAux d cs)
    | none => none

/-- Parse a JSON integer, with optional leading minus. -/
def parseInt (l : List Char) : Option (Int × List Char) :=
  match l with
  | [] => none
  | c :: r =>
    if c = '-' then (parseNat r).map (fun p => (-(p.1 : Int), p.2))
    else (parseNat (c :: r)).map (fun p => ((p.1 : Int), p.2))

/-- Consume an exact literal character sequence. -/
def expectLit : List Char → List Char → Option (List Char)
  | [], l => some l
  | _ :: _, [] => none
  | p :: ps, c :: cs => if c = p then expectLit ps cs else none

/-- Parse a JSON boolean literal. -/
def parseBoolLit (l : List Char) : Option (Bool × List Char) :=
  match expectLit ("true").data l with
  | some r => some (true, r)
  | none =>
    match expectLit ("false").data l with
    | some r => some (false, r)
    | none => none

/-- Parse one task object block in the `indent=2` layout `json_dumps`
emits. -/
def parseTaskBlock (l : List Char) : Option (Task × List Char) := do
  let r1 ← expectLit ("  \x7b\n    \"id\": ").data l
  let (i, r2) ← parseInt r1
  let r3 ← expectLit (",\n    \"description\": ").data r2
  let (d, r4) ← parseJString r3.length r3
  let r5 ← expectLit (",\n    \"priority\": ").data r4
  let (p, r6) ← parseJString r5.length r5
  let r7 ← expectLit (",\n    \"completed\": ").data r6
  let (b, r8) ← parseBoolLit r7
  let r9 ← expectLit ("\n  \x7d").data r8
  some (⟨i, d, p, b⟩, r9)

/-- Parse one or more task blocks separated by `",\n"`, terminated by
`"\n]"`.  `fuel` bounds the number of tasks. -/
def parseBlocks : Nat → List Char → Option (List Task × List Char)
  | 0, _ => none
  | fuel + 1, l =>
    match parseTaskBlock l with
    | none => none
    | some (t, r1) =>
      match r1 with
      | ',' :: '\n' :: r2 =>
        match parseBlocks fuel r2 with
        | some (ts, r3) => some (t :: ts, r3)
        | none => none
      | '\n' :: ']' :: r2 => some ([t], r2)
      | _ => none

/-- `json.loads` on the task-array grammar: the empty array, or a
bracketed sequence of task blocks; anything else raises
`json.decoder.JSONDecodeError` (modelled as `Except.error`). -/
def json_loads (s : String) : Except String (List Task) :=
  match s.data with
  | c1 :: c2 :: rest =>
    if c1 = '[' ∧ c2 = ']' ∧ rest = [] then .ok []
    else if c1 = '[' ∧ c2 = '\n' then
      match parseBlocks (rest.length + 1) rest with
      | some (ts, []) => .ok ts
      | _ => .error "json.decoder.JSONDecodeError"
    else .error "json.decoder.JSONDecodeError"
  | _ => .error "json.decoder.JSONDecodeError"

/-- The fixed tasks path `self.tasks_file = "tasks.json"`. -/
def tasks_file : String := "tasks.json"

/-- State of `SimpleTaskManager`: its simulated MCP server. -/
structure SimpleTaskManager where
  mcp_server : SimulatedMCPServer
deriving DecidableEq, Repr

/-- `SimpleTaskManager._read_tasks`: `read_file` through the server, then
`json.loads` on `result.get("content", "[]")`.  There is no exception
handler here: a decode failure propagates (`Except.error`). -/
def SimpleTaskManager._read_tasks (m : SimpleTaskManager) : Except String (List Task) := do
  let (_, result) ← m.mcp_server.call_tool "read_file" [("path", tasks_file)]
  json_loads (result.getContentD "[]")

/-- `SimpleTaskManager._write_tasks`: `write_file` of
`json.dumps(tasks, indent=2)` through the server. -/
def SimpleTaskManager._write_tasks (m : SimpleTaskManager) (tasks : List Task) :
    Except String SimpleTaskManager := do
  let (srv, _) ← m.mcp_server.call_tool "write_file"
    [("path", tasks_file), ("content", json_dumps tasks)]
  .ok ⟨srv⟩

/-- `SimpleTaskManager.add_task`: read, append the new task with
`id = len(tasks) + 1`, `completed = False`, write back. -/
def SimpleTaskManager.add_task (m : SimpleTaskManager) (description : String)
    (priority : String := "medium") : Except String SimpleTaskManager := do
  let tasks ← m._read_tasks
  let new_task : Task :=
    { id := (tasks.length : Int) + 1, description := description,
      priority := priority, completed := false }
  m._write_tasks (tasks ++ [new_task])

/-- The for-loop body of `complete_task`: find the first task with the
given id, set its `completed` field to `True` in place; `none` when the
scan finds no match. -/
def markFirstCompleted (task_id : Int) : List Task → Option (List Task)
  | [] => none
  | t :: ts =>
    if t.id = task_id then some ({ t with completed := true } :: ts)
    else (markFirstCompleted task_id ts).map (t :: ·)

/-- How one stored task may change under the completion operation: every
field preserved, except that `completed` may only move from `false` to
`true`, never back. -/
def completedMono (a b : Task) : Prop :=
  b.id = a.id ∧ b.description = a.description ∧ b.priority = a.priority ∧
    (a.completed = true → b.completed = true)

/-- `SimpleTaskManager.complete_task`: read; on the first matching task
set `completed = True` and write back, returning `true` ("completed!");
otherwise fall through the loop and return `false` ("not found"), with no
write. -/
def SimpleTaskManager.complete_task (m : SimpleTaskManager) (task_id : Int) :
    Except String (SimpleTaskManager × Bool) := do
  let tasks ← m._read_tasks
  match markFirstCompleted task_id tasks with
  | some tasks2 => do
    let m2 ← m._write_tasks tasks2
    .ok (m2, true)
  | none => .ok (m, false)

/-- `SimpleTaskManager.delete_task`: read, keep the tasks whose id
differs, write back unconditionally. -/
def SimpleTaskManager.delete_task (m : SimpleTaskManager) (task_id : Int) :
    Except String SimpleTaskManager := do
  let tasks ← m._read_tasks
  m._write_tasks (tasks.filter (fun t => t.id != task_id))

/-- The priority glyph dictionary lookup with default, from
`list_tasks`. -/
def priority_emoji (p : String) : String :=
  if p = "high" then "🔴"
  else if p = "medium" then "🟡"
  else if p = "low" then "🟢"
  else "⚪"

/-- One printed line of `list_tasks`. -/
def renderTaskLine (t : Task) : String :=
  (if t.completed then "✅" else "⬜") ++ " [" ++ toString t.id ++ "] " ++
    priority_emoji t.priority ++ " " ++ t.description

/-- `SimpleTaskManager.list_tasks`: read-only; `none` is the early-return
"No tasks yet!" outcome, otherwise the rendered lines in collection
order.  The operation performs no write (its type carries no state). -/
def SimpleTaskManager.list_tasks (m : SimpleTaskManager) :
    Except String (Option (List String)) := do
  let tasks ← m._read_tasks
  if tasks.isEmpty then .ok none
  else .ok (some (tasks.map renderTaskLine))

/-! ## The networked variant (`TaskManager`, `mcp_task_manager.py`)

Its provider is the external filesystem MCP server reached through
`self.session`; that process is not part of the repository, so one round
trip of `session.call_tool("read_file", ...)` is abstracted as the outcome
it produces. -/

/-- Modelled from the spec: the networked Tool Provider's answer to one
`read_file` call (the external `@modelcontextprotocol/server-filesystem`
process is not in the repository).  `ok content` is a reply whose
`result.content[0].text` is the stored text (`none` models an empty
`result.content`, read as `"[]"`); `exn` is a provider-level error, a
raised exception. -/
inductive MCPReadOutcome where
  | ok (content : Option String)
  | exn (msg : String)

/-- `TaskManager._read_tasks`: the whole read is wrapped in
`try/except Exception: return []` — both a provider-level error and a
`json.loads` failure yield the empty list. -/
def TaskManager._read_tasks (outcome : MCPReadOutcome) : List Task :=
  match outcome with
  | .exn _ => []
  | .ok c =>
    match json_loads (c.getD "[]") with
    | .ok ts => ts
    | .error _ => []

/-- `TaskManager.complete_task`: read (abstracted as its outcome), mark
the first matching task complete and write it back; the result records
what was written (`none` when nothing was, i.e. the "not found" fall
through) and the reported success flag. -/
def TaskManager.complete_task (outcome : MCPReadOutcome) (task_id : Int) :
    Option (List Task) × Bool :=
  let tasks := TaskManager._read_tasks outcome
  match markFirstCompleted task_id tasks with
  | some tasks2 => (some tasks2, true)
  | none => (none, false)

/-! ## Helper lemmas: dictionaries -/

theorem dictGet?_dictSet_self (d : List (String × String)) (k v : String) :
    dictGet? (dictSet d k v) k = some v := by
  induction d with
  | nil => simp [dictSet, dictGet?]
  | cons p rest ih =>
    obtain ⟨k0, v0⟩ := p
    by_cases h : k0 = k
    · simp [dictSet, dictGet?, h]
    · simp [dictSet, dictGet?, h, ih]

/-! ## Helper lemmas: literal and hex parsing -/

theorem expectLit_append (pat rest : List Char) :
    expectLit pat (pat ++ rest) = some rest := by
  induction pat with
  | nil => rfl
  | cons p ps ih => simp [expectLit, ih]

theorem hexVal?_hexDigitChar : ∀ d < 16, hexVal? (hexDigitChar d) = some d := by
  decide

theorem parseHex4_hex4 (v : Nat) (hv : v < 0x10000) (rest : List Char) :
    parseHex4 (hex4 v ++ rest) = some (v, rest) := by
  have h1 := hexVal?_hexDigitChar (v / 4096 % 16) (by omega)
  have h2 := hexVal?_hexDigitChar (v / 256 % 16) (by omega)
  have h3 := hexVal?_hexDigitChar (v / 16 % 16) (by omega)
  have h4 := hexVal?_hexDigitChar (v % 16) (by omega)
  simp only [hex4, List.cons_append, List.nil_append, parseHex4, h1, h2, h3, h4,
    Option.some_bind, Option.some.injEq, Prod.mk.injEq, Option.pure_def,
    Option.bind_eq_bind]
  refine ⟨by omega, trivial⟩

/-! ## Helper lemmas: characters -/

theorem mkChar?_toNat_self (c : Char) : mkChar? c.toNat = some c := by
  have hv : c.toNat.isValidChar := c.valid
  rw [mkChar?, dif_pos hv]
  congr 1
  apply Char.ext
  apply UInt32.ext
  have h : (UInt32.ofNat c.toNat).toNat = c.toNat % UInt32.size := rfl
  have h0 : c.toNat = c.val.toNat := rfl
  show (UInt32.ofNat c.toNat).toNat = c.val.toNat
  rw [h, h0]
  exact Nat.mod_eq_of_lt c.val.val.isLt

theorem char_toNat_valid (c : Char) : c.toNat.isValidChar := c.valid

theorem char_toNat_lt (c : Char) : c.toNat < 0x110000 := by
  have h0 : c.toNat = c.val.toNat := rfl
  rcases c.valid with h | h
  · omega
  · omega

theorem char_toNat_not_surrogate (c : Char) : c.toNat < 0xd800 ∨ 0xdfff < c.toNat := by
  have h0 : c.toNat = c.val.toNat := rfl
  rcases c.valid with h | h
  · exact Or.inl (by omega)
  · exact Or.inr (by omega)

/-! ## Helper lemmas: string-escape round trip -/

theorem parseEscape_u (v : Nat) (hv : v < 0x10000) (hns : v < 0xd800 ∨ 0xdfff < v)
    (r : List Char) :
    parseEscape ('u' :: (hex4 v ++ r)) = (mkChar? v).map (fun c => (c, r)) := by
  rw [parseEscape]
  simp only [if_neg (by decide : ¬('u' : Char) = '\"'),
    if_neg (by decide : ¬('u' : Char) = '\\'), if_neg (by decide : ¬('u' : Char) = '/'),
    if_neg (by decide : ¬('u' : Char) = 'b'), if_neg (by decide : ¬('u' : Char) = 'f'),
    if_neg (by decide : ¬('u' : Char) = 'n'), if_neg (by decide : ¬('u' : Char) = 'r'),
    if_neg (by decide : ¬('u' : Char) = 't'), if_pos (rfl : ('u' : Char) = 'u'),
    parseHex4_hex4 v hv r]
  simp [hns]

theorem parseEscape_u_pair (hi lo : Nat) (hhi1 : 0xd800 ≤ hi) (hhi2 : hi ≤ 0xdbff)
    (hlo1 : 0xdc00 ≤ lo) (hlo2 : lo ≤ 0xdfff) (r : List Char) :
    parseEscape ('u' :: (hex4 hi ++ ('\\' :: 'u' :: (hex4 lo ++ r)))) =
      (mkChar? (0x10000 + (hi - 0xd800) * 0x400 + (lo - 0xdc00))).map
        (fun c => (c, r)) := by
  rw [parseEscape]
  simp only [if_neg (by decide : ¬('u' : Char) = '\"'),
    if_neg (by decide : ¬('u' : Char) = '\\'), if_neg (by decide : ¬('u' : Char) = '/'),
    if_neg (by decide : ¬('u' : Char) = 'b'), if_neg (by decide : ¬('u' : Char) = 'f'),
    if_neg (by decide : ¬('u' : Char) = 'n'), if_neg (by decide : ¬('u' : Char) = 'r'),
    if_neg (by decide : ¬('u' : Char) = 't'), if_pos (rfl : ('u' : Char) = 'u'),
    parseHex4_hex4 hi (by omega) _]
  rw [if_neg (by omega : ¬(hi < 0xd800 ∨ 0xdfff < hi)), if_pos hhi2]
  simp [parseHex4_hex4 lo (by omega) r, hlo1, hlo2]

theorem parseStrBody_esc_step (fuel : Nat) (l r1 : List Char) (d : Char)
    (hpe : parseEscape l = some (d, r1)) :
    parseStrBody (fuel + 1) ('\\' :: l) =
      (parseStrBody fuel r1).map (fun p => (d :: p.1, p.2)) := by
  rw [parseStrBody, if_neg (by decide : ¬('\\' : Char) = '\"'),
    if_pos (rfl : ('\\' : Char) = '\\'), hpe]
  rcases hk : parseStrBody fuel r1 with _ | ⟨s, r⟩ <;> simp [hk]

theorem parseStrBody_raw_step (fuel : Nat) (c : Char) (k : List Char)
    (hq : ¬c = '\"') (hb : ¬c = '\\') (hge : 0x20 ≤ c.toNat) :
    parseStrBody (fuel + 1) (c :: k) =
      (parseStrBody fuel k).map (fun p => (c :: p.1, p.2)) := by
  rw [parseStrBody, if_neg hq, if_neg hb, if_pos hge]
  rcases hk : parseStrBody fuel k with _ | ⟨s, r⟩ <;> simp [hk]

theorem parseStrBody_escChar (c : Char) (k : List Char) (fuel : Nat) :
    parseStrBody (fuel + 1) (escChar c ++ k) =
      (parseStrBody fuel k).map (fun p => (c :: p.1, p.2)) := by
  by_cases h1 : c = '\"'
  · subst h1
    exact parseStrBody_esc_step fuel ('\"' :: k) k '\"' rfl
  by_cases h2 : c = '\\'
  · subst h2
    exact parseStrBody_esc_step fuel ('\\' :: k) k '\\' rfl
  by_cases h3 : c = '\x08'
  · subst h3
    exact parseStrBody_esc_step fuel ('b' :: k) k '\x08' rfl
  by_cases h4 : c = '\x0c'
  · subst h4
    exact parseStrBody_esc_step fuel ('f' :: k) k '\x0c' rfl
  by_cases h5 : c = '\n'
  · subst h5
    exact parseStrBody_esc_step fuel ('n' :: k) k '\n' rfl
  by_cases h6 : c = '\x0d'
  · subst h6
    exact parseStrBody_esc_step fuel ('r' :: k) k '\x0d' rfl
  by_cases h7 : c = '\t'
  · subst h7
    exact parseStrBody_esc_step fuel ('t' :: k) k '\t' rfl
  by_cases h8 : c.toNat < 0x20
  · have hesc : escChar c = '\\' :: 'u' :: hex4 c.toNat := by
      rw [escChar, if_neg h1, if_neg h2, if_neg h3, if_neg h4, if_neg h5, if_neg h6,
        if_neg h7, if_pos h8]
    have hpe : parseEscape ('u' :: (hex4 c.toNat ++ k)) = some (c, k) := by
      rw [parseEscape_u c.toNat (by omega) (Or.inl (by omega)) k, mkChar?_toNat_self c]
      rfl
    rw [hesc]
    simp only [List.cons_append]
    exact parseStrBody_esc_step fuel ('u' :: (hex4 c.toNat ++ k)) k c hpe
  by_cases h9 : c.toNat < 0x7f
  · have hesc : escChar c = [c] := by
      rw [escChar, if_neg h1, if_neg h2, if_neg h3, if_neg h4, if_neg h5, if_neg h6,
        if_neg h7, if_neg h8, if_pos h9]
    rw [hesc, List.cons_append, List.nil_append,
      parseStrBody_raw_step fuel c k h1 h2 (by omega)]
  by_cases h10 : c.toNat < 0x10000
  · have hesc : escChar c = '\\' :: 'u' :: hex4 c.toNat := by
      rw [escChar, if_neg h1, if_neg h2, if_neg h3, if_neg h4, if_neg h5, if_neg h6,
        if_neg h7, if_neg h8, if_neg h9, if_pos h10]
    have hpe : parseEscape ('u' :: (hex4 c.toNat ++ k)) = some (c, k) := by
      rw [parseEscape_u c.toNat h10 (char_toNat_not_surrogate c), mkChar?_toNat_self c]
      rfl
    rw [hesc]
    simp only [List.cons_append]
    exact parseStrBody_esc_step fuel ('u' :: (hex4 c.toNat ++ k)) k c hpe
  · have hv : c.toNat < 0x110000 := char_toNat_lt c
    have hesc : escChar c =
        ('\\' :: 'u' :: hex4 (0xd800 + (c.toNat - 0x10000) / 0x400))
          ++ ('\\' :: 'u' :: hex4 (0xdc00 + (c.toNat - 0x10000) % 0x400)) := by
      rw [escChar, if_neg h1, if_neg h2, if_neg h3, if_neg h4, if_neg h5, if_neg h6,
        if_neg h7, if_neg h8, if_neg h9, if_neg h10]
    have harith : 0x10000 + (0xd800 + (c.toNat - 0x10000) / 0x400 - 0xd800) * 0x400 +
        (0xdc00 + (c.toNat - 0x10000) % 0x400 - 0xdc00) = c.toNat := by omega
    have hpe : parseEscape ('u' :: (hex4 (0xd800 + (c.toNat - 0x10000) / 0x400) ++
        ('\\' :: 'u' :: (hex4 (0xdc00 + (c.toNat - 0x10000) % 0x400) ++ k)))) =
        some (c, k) := by
      rw [parseEscape_u_pair (0xd800 + (c.toNat - 0x10000) / 0x400)
        (0xdc00 + (c.toNat - 0x10000) % 0x400) (by omega) (by omega) (by omega)
        (by omega) k, harith, mkChar?_toNat_self c]
      rfl
    rw [hesc]
    simp only [List.cons_append, List.append_assoc]
    exact parseStrBody_esc_step fuel
      ('u' :: (hex4 (0xd800 + (c.toNat - 0x10000) / 0x400) ++
        ('\\' :: 'u' :: (hex4 (0xdc00 + (c.toNat - 0x10000) % 0x400) ++ k)))) k c hpe

theorem parseStrBody_escBody (cs : List Char) : ∀ fuel, cs.length + 1 ≤ fuel →
    ∀ rest, parseStrBody fuel ((cs.map escChar).flatten ++ '\"' :: rest) = some (cs, rest) := by
  induction cs with
  | nil =>
    intro fuel hf rest
    obtain ⟨f, rfl⟩ : ∃ f, fuel = f + 1 := ⟨fuel - 1, by omega⟩
    simp only [List.map_nil, List.flatten_nil, List.nil_append]
    rw [parseStrBody, if_pos rfl]
  | cons c cs ih =>
    intro fuel hf rest
    obtain ⟨f, rfl⟩ : ∃ f, fuel = f + 1 := ⟨fuel - 1, by omega⟩
    simp only [List.map_cons, List.flatten_cons, List.append_assoc]
    rw [parseStrBody_escChar c _ f, ih f (by simp at hf ⊢; omega) rest]
    rfl

theorem parseJString_quoteChars (s : String) (fuel : Nat)
    (hf : s.data.length + 1 ≤ fuel) (rest : List Char) :
    parseJString fuel (quoteChars s ++ rest) = some (s, rest) := by
  obtain ⟨l⟩ := s
  show parseJString fuel ('\"' :: (((⟨l⟩ : String).data.map escChar).flatten ++ ['\"'] ++ rest)) = _
  have hd : (⟨l⟩ : String).data = l := rfl
  rw [hd] at hf ⊢
  show parseJString fuel ('\"' :: ((l.map escChar).flatten ++ ['\"'] ++ rest)) = _
  rw [List.append_assoc]
  show (parseStrBody fuel ((l.map escChar).flatten ++ ('\"' :: rest))).map
      (fun p => ((⟨p.1⟩ : String), p.2)) = _
  rw [parseStrBody_escBody l fuel hf rest]
  rfl

/-! ## Helper lemmas: decimal round trip -/

theorem natCharsAux_congr : ∀ n fuel fuel2, n < fuel → n < fuel2 →
    natCharsAux fuel n = natCharsAux fuel2 n := by
  intro n
  induction n using Nat.strong_induction_on with
  | _ n ih =>
    intro fuel fuel2 h1 h2
    obtain ⟨f, rfl⟩ : ∃ f, fuel = f + 1 := ⟨fuel - 1, by omega⟩
    obtain ⟨g, rfl⟩ : ∃ g, fuel2 = g + 1 := ⟨fuel2 - 1, by omega⟩
    by_cases h : n < 10
    · simp [natCharsAux, h]
    · rw [natCharsAux, if_neg h, natCharsAux, if_neg h,
        ih (n / 10) (by omega) f g (by omega) (by omega)]

theorem natChars_eq (n : Nat) : natChars n =
    if n < 10 then [digitChar n] else natChars (n / 10) ++ [digitChar (n % 10)] := by
  by_cases h : n < 10
  · rw [natChars, natCharsAux, if_pos h, if_pos h]
  · rw [natChars, natCharsAux, if_neg h, if_neg h, natChars,
      natCharsAux_congr (n / 10) n (n / 10 + 1) (by omega) (by omega)]

theorem digVal?_digitChar : ∀ d < 10, digVal? (digitChar d) = some d := by
  decide

theorem parseNatAux_stop (acc : Nat) (rest : List Char) (h : leadDigit rest = false) :
    parseNatAux acc rest = (acc, rest) := by
  cases rest with
  | nil => rfl
  | cons c cs =>
    cases hd : digVal? c with
    | none => simp [parseNatAux, hd]
    | some d => simp [leadDigit, hd] at h

theorem parseNatAux_natChars (n : Nat) : ∀ acc rest,
    parseNatAux acc (natChars n ++ rest) = parseNatAux (acc * tenPow n + n) rest := by
  induction n using Nat.strong_induction_on with
  | _ n ih =>
    intro acc rest
    by_cases h : n < 10
    · rw [natChars_eq, if_pos h, tenPow, dif_pos h, List.cons_append, List.nil_append]
      simp only [parseNatAux, digVal?_digitChar n h]
    · rw [natChars_eq, if_neg h, tenPow, dif_neg h, List.append_assoc,
        ih (n / 10) (by omega) acc _, List.cons_append, List.nil_append]
      simp only [parseNatAux, digVal?_digitChar (n % 10) (by omega)]
      have key : (acc * tenPow (n / 10) + n / 10) * 10 + n % 10 =
          acc * (tenPow (n / 10) * 10) + n := by
        have hmod : n / 10 * 10 + n % 10 = n := by omega
        calc (acc * tenPow (n / 10) + n / 10) * 10 + n % 10
            = acc * (tenPow (n / 10) * 10) + (n / 10 * 10 + n % 10) := by ring
          _ = acc * (tenPow (n / 10) * 10) + n := by rw [hmod]
      rw [key]

theorem leadDigit_natChars (n : Nat) : leadDigit (natChars n) = true := by
  induction n using Nat.strong_induction_on with
  | _ n ih =>
    by_cases h : n < 10
    · rw [natChars_eq, if_pos h]
      simp [leadDigit, digVal?_digitChar n h]
    · rw [natChars_eq, if_neg h]
      have := ih (n / 10) (by omega)
      cases e : natChars (n / 10) with
      | nil => rw [e] at this; simp [leadDigit] at this
      | cons c cs =>
        rw [e] at this
        rw [List.cons_append]
        exact this

theorem parseNat_natChars (n : Nat) (rest : List Char) (h : leadDigit rest = false) :
    parseNat (natChars n ++ rest) = some (n, rest) := by
  have hld := leadDigit_natChars n
  cases e : natChars n with
  | nil => rw [e] at hld; simp [leadDigit] at hld
  | cons c cs =>
    rw [e] at hld
    cases hd : digVal? c with
    | none => simp [leadDigit, hd] at hld
    | some d =>
      have h1 : parseNatAux 0 (natChars n ++ rest) = (n, rest) := by
        rw [parseNatAux_natChars n 0 rest, Nat.zero_mul, Nat.zero_add,
          parseNatAux_stop n rest h]
      have h2 : parseNatAux 0 (natChars n ++ rest) = parseNatAux d (cs ++ rest) := by
        rw [e, List.cons_append]
        simp [parseNatAux, hd]
      rw [List.cons_append]
      simp only [parseNat, hd]
      rw [← h2, h1]

theorem parseInt_intChars (i : Int) (rest : List Char) (h : leadDigit rest = false) :
    parseInt (intChars i ++ rest) = some (i, rest) := by
  by_cases hneg : i < 0
  · rw [intChars, if_pos hneg, List.cons_append]
    have hp := parseNat_natChars i.natAbs rest h
    have hni : -(i.natAbs : Int) = i := by omega
    simp [parseInt, hp, hni]
    rw [abs_of_neg hneg]
    ring
  · rw [intChars, if_neg hneg]
    have hld := leadDigit_natChars i.toNat
    cases e : natChars i.toNat with
    | nil => rw [e] at hld; simp [leadDigit] at hld
    | cons c cs =>
      rw [e] at hld
      cases hd : digVal? c with
      | none => simp [leadDigit, hd] at hld
      | some d =>
        have hcm : ¬c = '-' := by
          intro heq
          rw [heq] at hd
          simp [digVal?] at hd
        rw [List.cons_append]
        simp only [parseInt, if_neg hcm]
        rw [← List.cons_append, ← e, parseNat_natChars i.toNat rest h]
        have hti : (i.toNat : Int) = i := by omega
        simp [hti]

/-! ## Helper lemmas: task-block round trip -/

set_option maxHeartbeats 1000000 in
theorem one_le_escChar_length (c : Char) : 1 ≤ (escChar c).length := by
  rw [escChar]
  split_ifs <;> simp [hex4]

theorem length_le_flatten_escChar (l : List Char) :
    l.length ≤ ((l.map escChar).flatten).length := by
  induction l with
  | nil => simp
  | cons c cs ih =>
    simp only [List.map_cons, List.flatten_cons, List.length_append, List.length_cons]
    have := one_le_escChar_length c
    omega

theorem quoteChars_length (s : String) : s.data.length + 2 ≤ (quoteChars s).length := by
  have := length_le_flatten_escChar s.data
  simp only [quoteChars, List.length_cons, List.length_append, List.length_singleton]
  omega

theorem parseJString_quoteChars_self (s : String) (tail : List Char) :
    parseJString (quoteChars s ++ tail).length (quoteChars s ++ tail) = some (s, tail) := by
  apply parseJString_quoteChars
  have := quoteChars_length s
  simp only [List.length_append]
  omega

theorem parseBoolLit_true (r : List Char) :
    parseBoolLit (("true").data ++ r) = some (true, r) := rfl

theorem parseBoolLit_false (r : List Char) :
    parseBoolLit (("false").data ++ r) = some (false, r) := rfl

theorem parseTaskBlock_dumpTask (t : Task) (rest : List Char) :
    parseTaskBlock (dumpTask t ++ rest) = some (t, rest) := by
  obtain ⟨i, d, p, b⟩ := t
  cases b
  · have hdump : dumpTask ⟨i, d, p, false⟩ =
        ("  \x7b\n    \"id\": ").data ++ (intChars i ++
          ((",\n    \"description\": ").data ++ (quoteChars d ++
            ((",\n    \"priority\": ").data ++ (quoteChars p ++
              ((",\n    \"completed\": ").data ++ (("false").data ++
                ("\n  \x7d").data))))))) := rfl
    rw [hdump]
    simp only [List.append_assoc]
    have s2 : parseInt (intChars i ++
        ((",\n    \"description\": ").data ++ (quoteChars d ++
          ((",\n    \"priority\": ").data ++ (quoteChars p ++
            ((",\n    \"completed\": ").data ++ (("false").data ++
              (("\n  \x7d").data ++ rest)))))))) = some (i,
        (",\n    \"description\": ").data ++ (quoteChars d ++
          ((",\n    \"priority\": ").data ++ (quoteChars p ++
            ((",\n    \"completed\": ").data ++ (("false").data ++
              (("\n  \x7d").data ++ rest))))))) := parseInt_intChars i _ rfl
    have sJd := parseJString_quoteChars_self d
      ((",\n    \"priority\": ").data ++ (quoteChars p ++
        ((",\n    \"completed\": ").data ++ (("false").data ++
          (("\n  \x7d").data ++ rest)))))
    have sJp := parseJString_quoteChars_self p
      ((",\n    \"completed\": ").data ++ (("false").data ++
        (("\n  \x7d").data ++ rest)))
    have s8 := parseBoolLit_false (("\n  \x7d").data ++ rest)
    simp only [parseTaskBlock, expectLit_append, s2, sJd, sJp, s8,
      Option.bind_eq_bind, Option.some_bind]
  · have hdump : dumpTask ⟨i, d, p, true⟩ =
        ("  \x7b\n    \"id\": ").data ++ (intChars i ++
          ((",\n    \"description\": ").data ++ (quoteChars d ++
            ((",\n    \"priority\": ").data ++ (quoteChars p ++
              ((",\n    \"completed\": ").data ++ (("true").data ++
                ("\n  \x7d").data))))))) := rfl
    rw [hdump]
    simp only [List.append_assoc]
    have s2 : parseInt (intChars i ++
        ((",\n    \"description\": ").data ++ (quoteChars d ++
          ((",\n    \"priority\": ").data ++ (quoteChars p ++
            ((",\n    \"completed\": ").data ++ (("true").data ++
              (("\n  \x7d").data ++ rest)))))))) = some (i,
        (",\n    \"description\": ").data ++ (quoteChars d ++
          ((",\n    \"priority\": ").data ++ (quoteChars p ++
            ((",\n    \"completed\": ").data ++ (("true").data ++
              (("\n  \x7d").data ++ rest))))))) := parseInt_intChars i _ rfl
    have sJd := parseJString_quoteChars_self d
      ((",\n    \"priority\": ").data ++ (quoteChars p ++
        ((",\n    \"completed\": ").data ++ (("true").data ++
          (("\n  \x7d").data ++ rest)))))
    have sJp := parseJString_quoteChars_self p
      ((",\n    \"completed\": ").data ++ (("true").data ++
        (("\n  \x7d").data ++ rest)))
    have s8 := parseBoolLit_true (("\n  \x7d").data ++ rest)
    simp only [parseTaskBlock, expectLit_append, s2, sJd, sJp, s8,
      Option.bind_eq_bind, Option.some_bind]



theorem one_le_dumpTask_length (t : Task) : 1 ≤ (dumpTask t).length := by
  simp [dumpTask]

theorem length_le_blocksChars : ∀ (ts : List Task) (t : Task),
    (t :: ts).length ≤ (blocksChars (t :: ts)).length + 1 := by
  intro ts
  induction ts with
  | nil =>
    intro t
    simp [blocksChars]
  | cons t2 ts ih =>
    intro t
    have h1 := one_le_dumpTask_length t
    have h2 := ih t2
    rw [blocksChars]
    simp only [List.length_append, List.length_cons] at h2 ⊢
    omega

theorem parseBlocks_blocksChars : ∀ (ts : List Task) (t : Task) (fuel : Nat),
    ts.length + 1 ≤ fuel → ∀ rest,
    parseBlocks fuel (blocksChars (t :: ts) ++ rest) = some (t :: ts, rest) := by
  intro ts
  induction ts with
  | nil =>
    intro t fuel hf rest
    obtain ⟨f, rfl⟩ : ∃ f, fuel = f + 1 := ⟨fuel - 1, by omega⟩
    rw [blocksChars, List.append_assoc]
    simp only [parseBlocks, parseTaskBlock_dumpTask t _, List.cons_append,
      List.nil_append]
  | cons t2 ts ih =>
    intro t fuel hf rest
    obtain ⟨f, rfl⟩ : ∃ f, fuel = f + 1 := ⟨fuel - 1, by omega⟩
    rw [blocksChars, List.append_assoc]
    simp only [parseBlocks, parseTaskBlock_dumpTask t _, List.cons_append]
    rw [ih t2 f (by simp at hf ⊢; omega) rest]

theorem json_loads_json_dumps (ts : List Task) : json_loads (json_dumps ts) = .ok ts := by
  cases ts with
  | nil => rfl
  | cons t ts =>
    show json_loads ⟨'[' :: '\n' :: blocksChars (t :: ts)⟩ = .ok (t :: ts)
    have hb := parseBlocks_blocksChars ts t ((blocksChars (t :: ts)).length + 1)
      (by have := length_le_blocksChars ts t; simp at this ⊢; omega) []
    rw [List.append_nil] at hb
    rw [json_loads]
    simp [hb]

/-! ## Helper lemmas: the store seen through the provider -/

theorem read_tasks_eq (m : SimpleTaskManager) :
    m._read_tasks =
      json_loads ((dictGet? m.mcp_server.filesystem tasks_file).getD "[]") := by
  cases h : dictGet? m.mcp_server.filesystem tasks_file <;>
    simp [SimpleTaskManager._read_tasks, SimulatedMCPServer.call_tool, dictGetExc,
      dictGet?, h, ToolResult.getContentD, bind, Except.bind]

theorem write_tasks_eq (m : SimpleTaskManager) (tasks : List Task) :
    m._write_tasks tasks =
      .ok ⟨⟨dictSet m.mcp_server.filesystem tasks_file (json_dumps tasks)⟩⟩ := by
  simp [SimpleTaskManager._write_tasks, SimulatedMCPServer.call_tool, dictGetExc,
    dictGet?, bind, Except.bind]

theorem read_after_write (m : SimpleTaskManager) (tasks : List Task) :
    (SimpleTaskManager.mk
        ⟨dictSet m.mcp_server.filesystem tasks_file (json_dumps tasks)⟩)._read_tasks =
      .ok tasks := by
  rw [read_tasks_eq]
  simp [dictGet?_dictSet_self, json_loads_json_dumps]

theorem markFirstCompleted_none (i : Int) :
    ∀ ts : List Task, (∀ t ∈ ts, t.id ≠ i) → markFirstCompleted i ts = none := by
  intro ts
  induction ts with
  | nil => intro _; rfl
  | cons t ts ih =>
    intro h
    rw [markFirstCompleted, if_neg (h t (by simp)), ih (fun u hu => h u (by simp [hu]))]
    rfl

theorem markFirstCompleted_some (i : Int) (t : Task) (ht : t.id = i) :
    ∀ pre : List Task, (∀ u ∈ pre, u.id ≠ i) → ∀ post,
      markFirstCompleted i (pre ++ t :: post) =
        some (pre ++ { t with completed := true } :: post) := by
  intro pre
  induction pre with
  | nil =>
    intro _ post
    simp only [List.nil_append]
    rw [markFirstCompleted, if_pos ht]
  | cons u pre ih =>
    intro h post
    simp only [List.cons_append]
    rw [markFirstCompleted, if_neg (h u (by simp)),
      ih (fun v hv => h v (by simp [hv])) post]
    rfl

theorem forall2_completedMono_refl : ∀ l : List Task, List.Forall₂ completedMono l l := by
  intro l
  induction l with
  | nil => exact List.Forall₂.nil
  | cons t ts ih => exact List.Forall₂.cons ⟨rfl, rfl, rfl, fun h => h⟩ ih

theorem markFirstCompleted_forall2 (i : Int) :
    ∀ ts ts2 : List Task, markFirstCompleted i ts = some ts2 →
      List.Forall₂ completedMono ts ts2 := by
  intro ts
  induction ts with
  | nil => intro ts2 h; simp [markFirstCompleted] at h
  | cons t ts ih =>
    intro ts2 h
    rw [markFirstCompleted] at h
    by_cases hid : t.id = i
    · rw [if_pos hid] at h
      obtain rfl : { t with completed := true } :: ts = ts2 := by
        simpa using h
      exact List.Forall₂.cons ⟨rfl, rfl, rfl, fun _ => rfl⟩ (forall2_completedMono_refl ts)
    · rw [if_neg hid] at h
      cases hm : markFirstCompleted i ts with
      | none => rw [hm] at h; simp at h
      | some ts' =>
        rw [hm] at h
        obtain rfl : t :: ts' = ts2 := by simpa using h
        exact List.Forall₂.cons ⟨rfl, rfl, rfl, fun hc => hc⟩ (ih ts' hm)

theorem add_task_eq (m : SimpleTaskManager) (tasks : List Task) (d p : String)
    (h : m._read_tasks = .ok tasks) :
    m.add_task d p = .ok ⟨⟨dictSet m.mcp_server.filesystem tasks_file
      (json_dumps (tasks ++ [⟨(tasks.length : Int) + 1, d, p, false⟩]))⟩⟩ := by
  simp [SimpleTaskManager.add_task, h, write_tasks_eq, bind, Except.bind]

theorem complete_task_not_found (m : SimpleTaskManager) (tasks : List Task) (i : Int)
    (h : m._read_tasks = .ok tasks) (hno : ∀ t ∈ tasks, t.id ≠ i) :
    m.complete_task i = .ok (m, false) := by
  simp [SimpleTaskManager.complete_task, h, markFirstCompleted_none i tasks hno,
    bind, Except.bind]

theorem complete_task_found (m : SimpleTaskManager) (i : Int) (pre : List Task)
    (t : Task) (post : List Task)
    (h : m._read_tasks = .ok (pre ++ t :: post))
    (hpre : ∀ u ∈ pre, u.id ≠ i) (ht : t.id = i) :
    m.complete_task i = .ok (⟨⟨dictSet m.mcp_server.filesystem tasks_file
      (json_dumps (pre ++ { t with completed := true } :: post))⟩⟩, true) := by
  simp [SimpleTaskManager.complete_task, h,
    markFirstCompleted_some i t ht pre hpre post, write_tasks_eq, bind, Except.bind]

theorem delete_task_eq (m : SimpleTaskManager) (tasks : List Task) (i : Int)
    (h : m._read_tasks = .ok tasks) :
    m.delete_task i = .ok ⟨⟨dictSet m.mcp_server.filesystem tasks_file
      (json_dumps (tasks.filter (fun t => t.id != i)))⟩⟩ := by
  simp [SimpleTaskManager.delete_task, h, write_tasks_eq, bind, Except.bind]

theorem list_tasks_eq (m : SimpleTaskManager) (tasks : List Task)
    (h : m._read_tasks = .ok tasks) :
    m.list_tasks = .ok (if tasks.isEmpty then none
      else some (tasks.map renderTaskLine)) := by
  cases he : tasks.isEmpty <;>
    simp [SimpleTaskManager.list_tasks, h, he, bind, Except.bind]

/-! ## The claims -/

set_option maxRecDepth 100000 in
set_option maxHeartbeats 1000000 in
/-- C2: adding to a collection of size N assigns id `N + 1` regardless of
the id values present, and the documented scenario holds: from empty,
`add "Write spec" high`, `add "Review" low`, `delete 1` leaves exactly
`[⟨2, "Review", "low", false⟩]`, and a further `add "X"` assigns id 2,
colliding with the live id 2. -/
theorem c2_id_assignment_and_collision_scenario :
    (∀ (m : SimpleTaskManager) (tasks : List Task) (d p : String),
      m._read_tasks = .ok tasks →
      m.add_task d p = .ok ⟨⟨dictSet m.mcp_server.filesystem tasks_file
        (json_dumps (tasks ++ [⟨(tasks.length : Int) + 1, d, p, false⟩]))⟩⟩) ∧
    (do
      let m1 ← (SimpleTaskManager.mk ⟨[]⟩).add_task "Write spec" "high"
      let m2 ← m1.add_task "Review" "low"
      let m3 ← m2.delete_task 1
      m3._read_tasks) = .ok [⟨2, "Review", "low", false⟩] ∧
    (do
      let m1 ← (SimpleTaskManager.mk ⟨[]⟩).add_task "Write spec" "high"
      let m2 ← m1.add_task "Review" "low"
      let m3 ← m2.delete_task 1
      let m4 ← m3.add_task "X"
      m4._read_tasks) = .ok [⟨2, "Review", "low", false⟩, ⟨2, "X", "medium", false⟩] := by
  refine ⟨fun m tasks d p h => add_task_eq m tasks d p h, ?_, ?_⟩ <;> rfl

/-- C2, witness: the general id-assignment clause applied to the empty
collection, where the fresh task receives id 1. -/
theorem c2_witness :
    (SimpleTaskManager.mk ⟨[]⟩).add_task "A" "high" =
      .ok ⟨⟨dictSet [] tasks_file (json_dumps
        (([] : List Task) ++ [⟨((([] : List Task)).length : Int) + 1, "A", "high", false⟩]))⟩⟩ :=
  c2_id_assignment_and_collision_scenario.1 (SimpleTaskManager.mk ⟨[]⟩) [] "A" "high" rfl

/-- C3: for every collection, writing it through `_write_tasks` and loading
through `_read_tasks` returns the same collection — ids, descriptions,
priorities, completion flags and order all preserved (list equality). -/
theorem c3_save_load_round_trip (m : SimpleTaskManager) (tasks : List Task) :
    ∃ m2, m._write_tasks tasks = .ok m2 ∧ m2._read_tasks = .ok tasks :=
  ⟨_, write_tasks_eq m tasks, read_after_write m tasks⟩

/-- C4: for an id with no match, `complete_task` scans the whole collection,
reports not-found (`false`) without raising, and performs no write — the
returned state is the unchanged `m` itself; when a match exists it sets the
first matching task's `completed` flag to `true` and saves.  The networked
variant likewise reports not-found with no write (`none`). -/
theorem c4_complete_not_found_no_write :
    (∀ (m : SimpleTaskManager) (tasks : List Task) (i : Int),
      m._read_tasks = .ok tasks → (∀ t ∈ tasks, t.id ≠ i) →
      m.complete_task i = .ok (m, false)) ∧
    (∀ (m : SimpleTaskManager) (i : Int) (pre : List Task) (t : Task) (post : List Task),
      m._read_tasks = .ok (pre ++ t :: post) → (∀ u ∈ pre, u.id ≠ i) → t.id = i →
      m.complete_task i = .ok (⟨⟨dictSet m.mcp_server.filesystem tasks_file
        (json_dumps (pre ++ { t with completed := true } :: post))⟩⟩, true)) ∧
    (∀ (outcome : MCPReadOutcome) (i : Int),
      (∀ t ∈ TaskManager._read_tasks outcome, t.id ≠ i) →
      TaskManager.complete_task outcome i = (none, false)) := by
  refine ⟨complete_task_not_found, complete_task_found, fun outcome i h => ?_⟩
  simp [TaskManager.complete_task, markFirstCompleted_none i _ h]

set_option maxRecDepth 100000 in
set_option maxHeartbeats 1000000 in
/-- C4, witness: not-found on the empty store leaves the state untouched;
completing id 1 in a one-task store marks it and writes; the networked
variant reports not-found with no write after a provider error. -/
theorem c4_witness :
    (SimpleTaskManager.mk ⟨[]⟩).complete_task 5 = .ok (SimpleTaskManager.mk ⟨[]⟩, false) ∧
    (SimpleTaskManager.mk ⟨[(tasks_file, json_dumps [⟨1, "a", "high", false⟩])]⟩).complete_task 1
      = .ok (⟨⟨dictSet [(tasks_file, json_dumps [⟨1, "a", "high", false⟩])] tasks_file
        (json_dumps ([] ++ ⟨1, "a", "high", true⟩ :: []))⟩⟩, true) ∧
    TaskManager.complete_task (.exn "boom") 1 = (none, false) :=
  ⟨c4_complete_not_found_no_write.1 (SimpleTaskManager.mk ⟨[]⟩) [] 5 rfl (by simp),
   c4_complete_not_found_no_write.2.1
     (SimpleTaskManager.mk ⟨[(tasks_file, json_dumps [⟨1, "a", "high", false⟩])]⟩)
     1 [] ⟨1, "a", "high", false⟩ [] rfl (by simp) rfl,
   c4_complete_not_found_no_write.2.2 (.exn "boom") 1 (by simp [TaskManager._read_tasks])⟩

/-- C5: deleting an id with no match leaves the collection element-wise
unchanged and raises no error, yet still performs the save — the resulting
filesystem is the written (`dictSet`) one, and loading it returns the
original collection. -/
theorem c5_delete_missing_id_noop_write (m : SimpleTaskManager) (tasks : List Task)
    (i : Int) (h : m._read_tasks = .ok tasks) (hno : ∀ t ∈ tasks, t.id ≠ i) :
    m.delete_task i = .ok ⟨⟨dictSet m.mcp_server.filesystem tasks_file
      (json_dumps tasks)⟩⟩ ∧
    (SimpleTaskManager.mk ⟨dictSet m.mcp_server.filesystem tasks_file
      (json_dumps tasks)⟩)._read_tasks = .ok tasks := by
  have hfilter : tasks.filter (fun t => t.id != i) = tasks := by
    apply List.filter_eq_self.mpr
    intro a ha
    simpa using hno a ha
  refine ⟨?_, read_after_write m tasks⟩
  rw [delete_task_eq m tasks i h, hfilter]

/-- C5, witness: deleting id 3 from the empty store still writes `"[]"`. -/
theorem c5_witness :
    (SimpleTaskManager.mk ⟨[]⟩).delete_task 3
      = .ok ⟨⟨dictSet [] tasks_file (json_dumps [])⟩⟩ ∧
    (SimpleTaskManager.mk ⟨dictSet [] tasks_file (json_dumps [])⟩)._read_tasks
      = .ok [] :=
  c5_delete_missing_id_noop_write (SimpleTaskManager.mk ⟨[]⟩) [] 3 rfl (by simp)

/-- C6: `read_file` on a path never written returns the canonical
empty-list marker `"[]"` as a content success, and consequently
`_read_tasks` on a store whose tasks path is absent returns the empty
collection. -/
theorem c6_read_absent_path_empty (srv : SimulatedMCPServer) (p : String)
    (hp : dictGet? srv.filesystem p = none)
    (ht : dictGet? srv.filesystem tasks_file = none) :
    srv.call_tool "read_file" [("path", p)] = .ok (srv, .content "[]") ∧
    (SimpleTaskManager.mk srv)._read_tasks = .ok [] := by
  constructor
  · simp [SimulatedMCPServer.call_tool, dictGetExc, dictGet?, hp, bind, Except.bind]
  · rw [read_tasks_eq]
    simp only [ht, Option.getD_none]
    rfl

/-- C6, witness: the fresh server with an empty filesystem. -/
theorem c6_witness :
    (⟨[]⟩ : SimulatedMCPServer).call_tool "read_file" [("path", "somewhere")]
      = .ok (⟨[]⟩, .content "[]") ∧
    (SimpleTaskManager.mk ⟨[]⟩)._read_tasks = .ok [] :=
  c6_read_absent_path_empty ⟨[]⟩ "somewhere" rfl rfl

/-- C7: no operation moves a surviving task's `completed` flag from `true`
back to `false`: completion relates the old and new collections pointwise
by `completedMono` (all fields kept, `completed` only raised); add leaves
every existing task literally unchanged and appends; delete keeps a
sublist of untouched tasks; list only reads and renders. -/
theorem c7_completed_flag_monotone :
    (∀ (m : SimpleTaskManager) (tasks : List Task) (i : Int)
        (m2 : SimpleTaskManager) (found : Bool),
      m._read_tasks = .ok tasks → m.complete_task i = .ok (m2, found) →
      ∃ tasks2, m2._read_tasks = .ok tasks2 ∧
        List.Forall₂ completedMono tasks tasks2) ∧
    (∀ (m : SimpleTaskManager) (tasks : List Task) (d p : String)
        (m2 : SimpleTaskManager),
      m._read_tasks = .ok tasks → m.add_task d p = .ok m2 →
      m2._read_tasks = .ok (tasks ++ [⟨(tasks.length : Int) + 1, d, p, false⟩])) ∧
    (∀ (m : SimpleTaskManager) (tasks : List Task) (i : Int)
        (m2 : SimpleTaskManager),
      m._read_tasks = .ok tasks → m.delete_task i = .ok m2 →
      m2._read_tasks = .ok (tasks.filter (fun t => t.id != i)) ∧
        (tasks.filter (fun t => t.id != i)).Sublist tasks) ∧
    (∀ (m : SimpleTaskManager) (tasks : List Task),
      m._read_tasks = .ok tasks →
      m.list_tasks = .ok (if tasks.isEmpty then none
        else some (tasks.map renderTaskLine))) := by
  refine ⟨?_, ?_, ?_, list_tasks_eq⟩
  · intro m tasks i m2 found h hc
    cases hm : markFirstCompleted i tasks with
    | none =>
      rw [SimpleTaskManager.complete_task] at hc
      simp [h, hm, bind, Except.bind] at hc
      obtain ⟨rfl, rfl⟩ := hc
      exact ⟨tasks, h, forall2_completedMono_refl tasks⟩
    | some ts2 =>
      rw [SimpleTaskManager.complete_task] at hc
      simp [h, hm, write_tasks_eq, bind, Except.bind] at hc
      obtain ⟨rfl, rfl⟩ := hc
      exact ⟨ts2, read_after_write m ts2, markFirstCompleted_forall2 i tasks ts2 hm⟩
  · intro m tasks d p m2 h hadd
    rw [add_task_eq m tasks d p h] at hadd
    obtain rfl : _ = m2 := by simpa using hadd
    exact read_after_write m _
  · intro m tasks i m2 h hdel
    rw [delete_task_eq m tasks i h] at hdel
    obtain rfl : _ = m2 := by simpa using hdel
    exact ⟨read_after_write m _, List.filter_sublist _⟩

set_option maxRecDepth 100000 in
set_option maxHeartbeats 1000000 in
/-- C7, witness: the four clauses applied to the empty store. -/
theorem c7_witness :
    (∃ tasks2, (SimpleTaskManager.mk ⟨[]⟩)._read_tasks = .ok tasks2 ∧
      List.Forall₂ completedMono [] tasks2) ∧
    (SimpleTaskManager.mk ⟨dictSet [] tasks_file
        (json_dumps ([] ++ [⟨((List.length ([] : List Task) : Int)) + 1, "A", "high", false⟩]))⟩)._read_tasks
      = .ok (([] : List Task) ++ [⟨((List.length ([] : List Task) : Int)) + 1, "A", "high", false⟩]) ∧
    ((SimpleTaskManager.mk ⟨dictSet [] tasks_file
        (json_dumps (([] : List Task).filter (fun t => t.id != 2)))⟩)._read_tasks
      = .ok (([] : List Task).filter (fun t => t.id != 2)) ∧
      (([] : List Task).filter (fun t => t.id != 2)).Sublist []) ∧
    (SimpleTaskManager.mk ⟨[]⟩).list_tasks
      = .ok (if ([] : List Task).isEmpty then none
        else some (([] : List Task).map renderTaskLine)) :=
  ⟨c7_completed_flag_monotone.1 (SimpleTaskManager.mk ⟨[]⟩) [] 1
     (SimpleTaskManager.mk ⟨[]⟩) false rfl rfl,
   c7_completed_flag_monotone.2.1 (SimpleTaskManager.mk ⟨[]⟩) [] "A" "high" _ rfl rfl,
   c7_completed_flag_monotone.2.2.1 (SimpleTaskManager.mk ⟨[]⟩) [] 2 _ rfl rfl,
   c7_completed_flag_monotone.2.2.2 (SimpleTaskManager.mk ⟨[]⟩) [] rfl⟩

/-- C8: any tool name other than the three known ones yields a structured
`error` result (the "Unknown tool" dict) through a normal return, not a
raised exception, and the server state comes back unchanged. -/
theorem c8_unknown_tool_structured_error (srv : SimulatedMCPServer)
    (tool_name : String) (args : List (String × String))
    (h1 : tool_name ≠ "read_file") (h2 : tool_name ≠ "write_file")
    (h3 : tool_name ≠ "list_directory") :
    srv.call_tool tool_name args = .ok (srv, .error ("Unknown tool: " ++ tool_name)) := by
  rw [SimulatedMCPServer.call_tool, if_neg h1, if_neg h2, if_neg h3]

/-- C8, witness: a nonsense tool name against a non-empty store. -/
theorem c8_witness :
    (⟨[("f.txt", "hello")]⟩ : SimulatedMCPServer).call_tool "no_such_tool" []
      = .ok (⟨[("f.txt", "hello")]⟩, .error ("Unknown tool: " ++ "no_such_tool")) :=
  c8_unknown_tool_structured_error ⟨[("f.txt", "hello")]⟩ "no_such_tool" []
    (by decide) (by decide) (by decide)

/-- C9: `delete_task` persists exactly the subsequence of tasks whose id
differs from the argument — a sublist of the original (relative order
preserved), containing no matching task and every non-matching one; every
duplicate of the id is removed, not only the first. -/
theorem c9_delete_filters_all_matches (m : SimpleTaskManager) (tasks : List Task)
    (i : Int) (h : m._read_tasks = .ok tasks) :
    m.delete_task i = .ok ⟨⟨dictSet m.mcp_server.filesystem tasks_file
      (json_dumps (tasks.filter (fun t => t.id != i)))⟩⟩ ∧
    (SimpleTaskManager.mk ⟨dictSet m.mcp_server.filesystem tasks_file
      (json_dumps (tasks.filter (fun t => t.id != i)))⟩)._read_tasks
        = .ok (tasks.filter (fun t => t.id != i)) ∧
    (tasks.filter (fun t => t.id != i)).Sublist tasks ∧
    (∀ t ∈ tasks.filter (fun t => t.id != i), t.id ≠ i) ∧
    (∀ t ∈ tasks, t.id ≠ i → t ∈ tasks.filter (fun t => t.id != i)) := by
  refine ⟨delete_task_eq m tasks i h, read_after_write m _, List.filter_sublist _,
    ?_, ?_⟩
  · intro t htm
    have := List.of_mem_filter htm
    simpa using this
  · intro t htm hne
    exact List.mem_filter.mpr ⟨htm, by simpa using hne⟩

set_option maxRecDepth 100000 in
set_option maxHeartbeats 1000000 in
/-- C9, witness: a store holding two tasks that both carry id 2 — the
documented collision state — from which `delete 2` removes both. -/
theorem c9_witness :
    (SimpleTaskManager.mk ⟨[(tasks_file,
        json_dumps [⟨2, "Review", "low", false⟩, ⟨2, "X", "medium", false⟩])]⟩).delete_task 2
      = .ok ⟨⟨dictSet [(tasks_file,
          json_dumps [⟨2, "Review", "low", false⟩, ⟨2, "X", "medium", false⟩])] tasks_file
        (json_dumps (([⟨2, "Review", "low", false⟩,
          ⟨2, "X", "medium", false⟩] : List Task).filter (fun t => t.id != 2)))⟩⟩ ∧
    (SimpleTaskManager.mk ⟨dictSet [(tasks_file,
        json_dumps [⟨2, "Review", "low", false⟩, ⟨2, "X", "medium", false⟩])] tasks_file
        (json_dumps (([⟨2, "Review", "low", false⟩,
          ⟨2, "X", "medium", false⟩] : List Task).filter (fun t => t.id != 2)))⟩)._read_tasks
      = .ok (([⟨2, "Review", "low", false⟩,
          ⟨2, "X", "medium", false⟩] : List Task).filter (fun t => t.id != 2)) ∧
    ((([⟨2, "Review", "low", false⟩,
        ⟨2, "X", "medium", false⟩] : List Task).filter (fun t => t.id != 2)).Sublist
      ([⟨2, "Review", "low", false⟩, ⟨2, "X", "medium", false⟩] : List Task)) ∧
    (∀ t ∈ (([⟨2, "Review", "low", false⟩,
        ⟨2, "X", "medium", false⟩] : List Task).filter (fun t => t.id != 2)), t.id ≠ 2) ∧
    (∀ t ∈ ([⟨2, "Review", "low", false⟩, ⟨2, "X", "medium", false⟩] : List Task),
        t.id ≠ 2 → t ∈ (([⟨2, "Review", "low", false⟩,
          ⟨2, "X", "medium", false⟩] : List Task).filter (fun t => t.id != 2))) :=
  c9_delete_filters_all_matches
    (SimpleTaskManager.mk ⟨[(tasks_file,
      json_dumps [⟨2, "Review", "low", false⟩, ⟨2, "X", "medium", false⟩])]⟩)
    [⟨2, "Review", "low", false⟩, ⟨2, "X", "medium", false⟩] 2 rfl

/-- C10: calling a known tool with a malformed argument record raises a
`KeyError` (a propagated exception, `Except.error`) instead of returning a
structured error result: `read_file`/`write_file` without `"path"`, and
`write_file` with `"path"` but without `"content"`. -/
theorem c10_malformed_args_raise_keyerror (srv : SimulatedMCPServer)
    (args : List (String × String)) :
    (dictGet? args "path" = none →
      srv.call_tool "read_file" args = .error "KeyError: path" ∧
      srv.call_tool "write_file" args = .error "KeyError: path") ∧
    (∀ p, dictGet? args "path" = some p → dictGet? args "content" = none →
      srv.call_tool "write_file" args = .error "KeyError: content") := by
  constructor
  · intro h
    constructor <;>
      simp [SimulatedMCPServer.call_tool, dictGetExc, h, bind, Except.bind]
  · intro p hp hc
    simp [SimulatedMCPServer.call_tool, dictGetExc, hp, hc, bind, Except.bind]

/-- C10, witness: empty argument dicts, and a write with only `"path"`. -/
theorem c10_witness :
    ((⟨[]⟩ : SimulatedMCPServer).call_tool "read_file" [] = .error "KeyError: path" ∧
      (⟨[]⟩ : SimulatedMCPServer).call_tool "write_file" [] = .error "KeyError: path") ∧
    (⟨[]⟩ : SimulatedMCPServer).call_tool "write_file" [("path", "x")]
      = .error "KeyError: content" :=
  ⟨(c10_malformed_args_raise_keyerror ⟨[]⟩ []).1 rfl,
   (c10_malformed_args_raise_keyerror ⟨[]⟩ [("path", "x")]).2 "x" rfl rfl⟩

end MCPDemo
